import Mathlib

/-!
# Verification of the mobile-qa-agent test orchestration engine

Shallow embedding of the core of the `mobile-qa-agent` repository:

* `src/test_cases/obsidian_tests.py` — test-case data model and the
  `is_correct` verdict classifier,
* `src/tools/adb_tools.py` — bounds parsing, center computation and the
  element-resolution search functions,
* `src/agents/executor.py` — the action executor (dispatch, action counter,
  terminal actions, error catching),
* `src/agents/planner.py` — the planning adapter (code-fence stripping,
  transient-error retry loop, rate limiter),
* `src/agents/supervisor.py` — the bounded orchestration loop and the
  result classifier.

Python dictionaries holding actions are modelled as a structure of optional
fields; `dict.get(key, default)` becomes `Option.getD`.  Exceptions are
modelled with `Except String`.  External collaborators (the ADB device
backend, the decision service, `json.loads`) are parameters of the
embedded functions, exactly at the interface boundary the code uses them.
Wall-clock time (`time.time` / `time.sleep`) is modelled with an explicit
rational-valued clock threaded through the rate limiter.
-/

/-! ## String utilities

Python's substring test `needle in haystack` on `str`, embedded over the
character lists of the two strings. -/

/-- `listContainsSub needle hay = true` iff `needle` occurs as a contiguous
sublist of `hay` (Python `needle in hay` on strings). -/
def listContainsSub (needle : List Char) : List Char → Bool
  | [] => needle.isEmpty
  | c :: rest => needle.isPrefixOf (c :: rest) || listContainsSub needle rest

/-- Python `needle in hay` for strings. -/
def strContainsSub (hay needle : String) : Bool :=
  listContainsSub needle.data hay.data

/-- Python `s.lower()` (ASCII case folding, character by character — the
queries and attributes the code compares are ASCII). -/
def strLower (s : String) : String :=
  String.mk (s.data.map Char.toLower)

/-! ## `src/test_cases/obsidian_tests.py` — data model and verdict classifier -/

/-- `TestStatus` enumeration (obsidian_tests.py lines 17-23). -/
inductive TestStatus where
  | pending
  | running
  | passed
  | failed
  | error
deriving DecidableEq, Repr

/-- `TestCase` dataclass (obsidian_tests.py lines 26-37).  The optional step
hints are documentation only. -/
structure TestCase where
  name : String
  description : String
  expected_result : String
  should_pass : Bool
  steps : List String := []
deriving DecidableEq, Repr

/-- `TestResult` dataclass (obsidian_tests.py lines 40-52). -/
structure TestResult where
  test_case : TestCase
  status : TestStatus
  actual_result : String
  steps_executed : List String
  error_message : Option String := none
  screenshots : List String := []
deriving DecidableEq, Repr

namespace TestResult

/-- `TestResult.is_correct` property (obsidian_tests.py lines 54-60):
`if should_pass: status == PASSED else: status == FAILED`. -/
def is_correct (r : TestResult) : Bool :=
  if r.test_case.should_pass then
    r.status = TestStatus.passed
  else
    r.status = TestStatus.failed

end TestResult

/-- C1: For every TestResult, `is_correct` is true iff
`(should_pass ∧ status = PASSED) ∨ (¬should_pass ∧ status = FAILED)`;
in particular status ERROR yields `is_correct = false` for both values of
`should_pass`. -/
theorem is_correct_truth_table (r : TestResult) :
    (r.is_correct = true ↔
      (r.test_case.should_pass = true ∧ r.status = TestStatus.passed) ∨
      (r.test_case.should_pass = false ∧ r.status = TestStatus.failed)) ∧
    (r.status = TestStatus.error → r.is_correct = false) := by
  unfold TestResult.is_correct
  rcases h : r.test_case.should_pass <;> simp [h] <;>
    rcases hs : r.status <;> simp [hs]

/-- Witness for C1: a concrete `TestResult` with `should_pass = true`,
`status = ERROR` is classified incorrect, and its truth-table direction holds. -/
theorem is_correct_truth_table_holds :
    ({ test_case := { name := "t", description := "", expected_result := "",
                      should_pass := true },
       status := TestStatus.error, actual_result := "", steps_executed := [] :
       TestResult }).is_correct = false :=
  (is_correct_truth_table _).2 rfl

/-! ## `src/tools/adb_tools.py` — bounds parsing and element resolution

`_parse_bounds` runs `re.findall` with the pattern matching `[digits,digits]`
over the bounds string.  The scan below tries to match that pattern at every
position of the character list; since a match span `[d+,d+]` contains no
inner `[`, no two matches can overlap, so trying every position yields
exactly the same match list as `re.findall`'s non-overlapping left-to-right
scan. -/

namespace ADBTools

/-- Read a maximal (possibly empty) digit prefix, accumulating its value in
base 10 (the semantics of the regex group `(\d+)` converted by `int`). -/
def readNatAux (acc : Nat) : List Char → Nat × List Char
  | [] => (acc, [])
  | c :: rest =>
      if c.isDigit then readNatAux (acc * 10 + (c.toNat - 48)) rest
      else (acc, c :: rest)

/-- Read a nonempty digit prefix; fails if the first char is not a digit. -/
def readNum : List Char → Option (Nat × List Char)
  | [] => none
  | c :: rest =>
      if c.isDigit then some (readNatAux (c.toNat - 48) rest)
      else none

/-- After `[x,` has been read: read the second number and the closing
bracket (second half of the regex `\[(\d+),(\d+)\]`). -/
def matchAfterComma (x : Nat) (rest2 : List Char) : Option (Nat × Nat × List Char) :=
  match readNum rest2 with
  | some (y, ']' :: rest4) => some (x, y, rest4)
  | _ => none

/-- After an opening `[`: read the first number, the comma, and the rest of
the pair. -/
def matchAfterBracket (rest : List Char) : Option (Nat × Nat × List Char) :=
  match readNum rest with
  | some (x, ',' :: rest2) => matchAfterComma x rest2
  | _ => none

/-- Try to match the regex `\[(\d+),(\d+)\]` at the head of the list,
returning the two captured numbers and the rest of the input. -/
def matchPair : List Char → Option (Nat × Nat × List Char)
  | [] => none
  | c :: rest => if c = '[' then matchAfterBracket rest else none

/-- All matches of `\[(\d+),(\d+)\]` in the input, in left-to-right order
(the result of `re.findall` in `_parse_bounds`). -/
def scanPairs : List Char → List (Nat × Nat)
  | [] => []
  | c :: rest =>
      match matchPair (c :: rest) with
      | some (x, y, _) => (x, y) :: scanPairs rest
      | none => scanPairs rest

/-- `ADBTools._parse_bounds` (adb_tools.py lines 439-454): if the findall
scan yields exactly two pairs, return them as `(x1, y1, x2, y2)`; otherwise
raise `ValueError("Could not parse bounds: ...")`. -/
def parse_bounds (bounds_str : String) : Except String (Nat × Nat × Nat × Nat) :=
  match scanPairs bounds_str.data with
  | [(x1, y1), (x2, y2)] => Except.ok (x1, y1, x2, y2)
  | _ => Except.error ("Could not parse bounds: " ++ bounds_str)

/-- `ADBTools._get_center` (adb_tools.py lines 456-467):
`((x1 + x2) // 2, (y1 + y2) // 2)`. -/
def get_center (bounds : Nat × Nat × Nat × Nat) : Nat × Nat :=
  match bounds with
  | (x1, y1, x2, y2) => ((x1 + x2) / 2, (y1 + y2) / 2)

end ADBTools

namespace ADBTools

/-- Decimal rendering of a natural number as a character list (standard
base-10 rendering; used to state "well-formed bounds string of the form
`[x1,y1][x2,y2]`" for arbitrary coordinates). -/
def natDigits (n : Nat) : List Char :=
  if h : n < 10 then [Char.ofNat (48 + n)]
  else natDigits (n / 10) ++ [Char.ofNat (48 + n % 10)]
decreasing_by
  exact Nat.div_lt_self (by omega) (by omega)

/-- A well-formed bounds string `[x1,y1][x2,y2]` built from four
coordinates. -/
def mkBoundsStr (x1 y1 x2 y2 : Nat) : String :=
  String.mk ('[' :: natDigits x1 ++ ',' :: natDigits y1 ++ ']' ::
             '[' :: natDigits x2 ++ ',' :: natDigits y2 ++ [']'])

/-- A UI element node as extracted from the `uiautomator` XML dump, in
document order.  The snapshot passed to the find functions is the list of
such nodes, which is what the regex iteration in
`find_element_by_text` / `find_element_by_text_contains` /
`find_element_by_resource_id` / `find_element_by_hint` walks over. -/
structure UINode where
  text : String := ""
  resource_id : String := ""
  hint : String := ""
  bounds : String := ""
deriving DecidableEq, Repr

/-- The element record returned by the find functions: the matched
attribute value, the parsed bounds and the computed center. -/
structure FoundElement where
  matched : String
  bounds : Nat × Nat × Nat × Nat
  center_x : Nat
  center_y : Nat
deriving DecidableEq, Repr

/-- Build the returned element record from a matched attribute value and a
successfully parsed bounds tuple. -/
def mkFound (v : String) (b : Nat × Nat × Nat × Nat) : FoundElement :=
  { matched := v, bounds := b,
    center_x := (get_center b).1, center_y := (get_center b).2 }

/-- `ADBTools.find_element_by_text` (adb_tools.py lines 469-511): first node
whose `text` attribute equals the query byte-for-byte; nodes whose bounds
fail to parse are skipped (the `ValueError` is caught and the loop
continues).  Returns the query itself as the matched text, as the source
does. -/
def find_element_by_text (query : String) : List UINode → Option FoundElement
  | [] => none
  | n :: rest =>
      if n.text = query then
        match parse_bounds n.bounds with
        | Except.ok b => some (mkFound query b)
        | Except.error _ => find_element_by_text query rest
      else find_element_by_text query rest

/-- `ADBTools.find_element_by_text_contains` (adb_tools.py lines 513-554):
first node with nonempty `text` containing the query case-insensitively
(`found_text and text.lower() in found_text.lower()`). -/
def find_element_by_text_contains (query : String) :
    List UINode → Option FoundElement
  | [] => none
  | n :: rest =>
      if n.text ≠ "" ∧ strContainsSub (strLower n.text) (strLower query) then
        match parse_bounds n.bounds with
        | Except.ok b => some (mkFound n.text b)
        | Except.error _ => find_element_by_text_contains query rest
      else find_element_by_text_contains query rest

/-- `ADBTools.find_element_by_resource_id` (adb_tools.py lines 556-596):
first node with nonempty `resource-id` containing the query — note the
source's test `resource_id in found_id` is case-sensitive. -/
def find_element_by_resource_id (query : String) :
    List UINode → Option FoundElement
  | [] => none
  | n :: rest =>
      if n.resource_id ≠ "" ∧ strContainsSub n.resource_id query then
        match parse_bounds n.bounds with
        | Except.ok b => some (mkFound n.resource_id b)
        | Except.error _ => find_element_by_resource_id query rest
      else find_element_by_resource_id query rest

/-- `ADBTools.find_element_by_hint` (adb_tools.py lines 640-680): first node
with nonempty `hint` containing the query case-insensitively. -/
def find_element_by_hint (query : String) : List UINode → Option FoundElement
  | [] => none
  | n :: rest =>
      if n.hint ≠ "" ∧ strContainsSub (strLower n.hint) (strLower query) then
        match parse_bounds n.bounds with
        | Except.ok b => some (mkFound n.hint b)
        | Except.error _ => find_element_by_hint query rest
      else find_element_by_hint query rest

/-- Spec-side first-match formulation: the first node of the snapshot (in
document order) that satisfies the matching predicate and has parseable
bounds, turned into the returned element record. -/
def firstMatch (p : UINode → Bool) (val : UINode → String)
    (snapshot : List UINode) : Option FoundElement :=
  (snapshot.filter (fun n => p n && (parse_bounds n.bounds).toOption.isSome)).head?
    |>.map (fun n => mkFound (val n) ((parse_bounds n.bounds).toOption.getD (0, 0, 0, 0)))

end ADBTools

namespace ADBTools

/-- Accumulated base-10 value of a digit list, mirroring `readNatAux`. -/
def digitsVal (acc : Nat) : List Char → Nat
  | [] => acc
  | c :: rest => digitsVal (acc * 10 + (c.toNat - 48)) rest

/-- `pow10 n` is `10 ^ (number of decimal digits of n)`, by the same
recursion as `natDigits`. -/
def pow10 (n : Nat) : Nat :=
  if h : n < 10 then 10 else 10 * pow10 (n / 10)
decreasing_by
  exact Nat.div_lt_self (by omega) (by omega)

set_option maxHeartbeats 1600000 in
theorem digit_char_val : ∀ k, k < 10 →
    (Char.ofNat (48 + k)).toNat - 48 = k ∧ (Char.ofNat (48 + k)).isDigit = true := by
  decide

theorem digitsVal_append (xs ys : List Char) :
    ∀ acc, digitsVal acc (xs ++ ys) = digitsVal (digitsVal acc xs) ys := by
  induction xs with
  | nil => intro acc; rfl
  | cons c rest ih =>
    intro acc
    rw [List.cons_append]
    exact ih (acc * 10 + (c.toNat - 48))

theorem digitsVal_natDigits (n : Nat) :
    ∀ acc, digitsVal acc (natDigits n) = acc * pow10 n + n := by
  induction n using Nat.strong_induction_on with
  | _ n ih =>
    intro acc
    by_cases h : n < 10
    · rw [natDigits, pow10, dif_pos h, dif_pos h]
      show acc * 10 + ((Char.ofNat (48 + n)).toNat - 48) = acc * 10 + n
      rw [(digit_char_val n h).1]
    · rw [natDigits, pow10, dif_neg h, dif_neg h, digitsVal_append]
      have hlt : n / 10 < n := Nat.div_lt_self (by omega) (by omega)
      rw [ih (n / 10) hlt acc]
      show (acc * pow10 (n / 10) + n / 10) * 10 +
          ((Char.ofNat (48 + n % 10)).toNat - 48) =
          acc * (10 * pow10 (n / 10)) + n
      rw [(digit_char_val (n % 10) (Nat.mod_lt n (by omega))).1]
      have hring : acc * (10 * pow10 (n / 10)) = acc * pow10 (n / 10) * 10 := by ring
      rw [hring]
      generalize acc * pow10 (n / 10) = A
      omega

theorem natDigits_all_digits (n : Nat) :
    ∀ c ∈ natDigits n, c.isDigit = true := by
  induction n using Nat.strong_induction_on with
  | _ n ih =>
    by_cases h : n < 10
    · rw [natDigits, dif_pos h]
      intro c hc
      simp only [List.mem_singleton] at hc
      exact hc ▸ (digit_char_val n h).2
    · rw [natDigits, dif_neg h]
      intro c hc
      rcases List.mem_append.mp hc with h1 | h2
      · exact ih (n / 10) (Nat.div_lt_self (by omega) (by omega)) c h1
      · simp only [List.mem_singleton] at h2
        exact h2 ▸ (digit_char_val (n % 10) (Nat.mod_lt n (by omega))).2

theorem natDigits_ne_nil (n : Nat) : natDigits n ≠ [] := by
  rw [natDigits]
  by_cases h : n < 10 <;> simp [h]

/-- `readNatAux` consumes a digits-only prefix, accumulating its value. -/
theorem readNatAux_append_digits (ds : List Char)
    (hds : ∀ c ∈ ds, c.isDigit = true) :
    ∀ acc rest, readNatAux acc (ds ++ rest) = readNatAux (digitsVal acc ds) rest := by
  induction ds with
  | nil => intro acc rest; rfl
  | cons c t ih =>
    intro acc rest
    have hc : c.isDigit = true := hds c (List.mem_cons_self c t)
    simp only [List.cons_append, readNatAux, hc, if_pos]
    exact ih (fun x hx => hds x (List.mem_cons_of_mem c hx)) _ rest

/-- `readNatAux` stops at a non-digit head (or the end of input). -/
theorem readNatAux_stop (acc : Nat) :
    ∀ rest : List Char, (∀ c t, rest = c :: t → c.isDigit = false) →
      readNatAux acc rest = (acc, rest) := by
  intro rest h
  match rest with
  | [] => rfl
  | c :: t => simp only [readNatAux, h c t rfl, Bool.false_eq_true, if_false]

/-- `readNum` inverts the decimal rendering when the following character is
not a digit. -/
theorem readNum_natDigits (n : Nat) (rest : List Char)
    (hrest : ∀ c t, rest = c :: t → c.isDigit = false) :
    readNum (natDigits n ++ rest) = some (n, rest) := by
  obtain ⟨c0, ds, hds⟩ := List.exists_cons_of_ne_nil (natDigits_ne_nil n)
  have hall := natDigits_all_digits n
  rw [hds] at hall ⊢
  have hc0 : c0.isDigit = true := hall c0 (List.mem_cons_self c0 ds)
  simp only [List.cons_append, readNum, hc0, if_pos]
  rw [readNatAux_append_digits ds (fun x hx => hall x (List.mem_cons_of_mem c0 hx)),
      readNatAux_stop _ rest hrest]
  have hval : digitsVal (c0.toNat - 48) ds = n := by
    have h0 : digitsVal 0 (c0 :: ds) = digitsVal (c0.toNat - 48) ds := by
      have heq : 0 * 10 + (c0.toNat - 48) = c0.toNat - 48 := by omega
      rw [show digitsVal 0 (c0 :: ds) = digitsVal (0 * 10 + (c0.toNat - 48)) ds
            from rfl,
          heq]
    have h1 : digitsVal 0 (c0 :: ds) = n := by
      rw [← hds, digitsVal_natDigits n 0]
      omega
    omega
  rw [hval]

theorem comma_not_digit {X : List Char} :
    ∀ c t, (',' :: X : List Char) = c :: t → c.isDigit = false := by
  intro c t h
  injection h with h1 _
  rw [← h1]
  decide

theorem rbracket_not_digit {X : List Char} :
    ∀ c t, (']' :: X : List Char) = c :: t → c.isDigit = false := by
  intro c t h
  injection h with h1 _
  rw [← h1]
  decide

/-- `matchPair` succeeds on a rendered `[x,y]` prefix and consumes exactly
that prefix. -/
theorem matchPair_render (x y : Nat) (rest : List Char) :
    matchPair ('[' :: (natDigits x ++ (',' :: (natDigits y ++ (']' :: rest))))) =
      some (x, y, rest) := by
  have hx : readNum (natDigits x ++ (',' :: (natDigits y ++ (']' :: rest)))) =
      some (x, ',' :: (natDigits y ++ (']' :: rest))) :=
    readNum_natDigits x _ comma_not_digit
  have hy : readNum (natDigits y ++ (']' :: rest)) = some (y, ']' :: rest) :=
    readNum_natDigits y (']' :: rest) rbracket_not_digit
  simp only [matchPair, if_pos rfl, matchAfterBracket, hx, matchAfterComma, hy]
  simp

theorem matchPair_none_of_head {c : Char} (h : c ≠ '[') (rest : List Char) :
    matchPair (c :: rest) = none := by
  simp [matchPair, h]

theorem scanPairs_cons (c : Char) (rest : List Char) :
    scanPairs (c :: rest) =
      (match matchPair (c :: rest) with
       | some (x, y, _) => (x, y) :: scanPairs rest
       | none => scanPairs rest) := rfl

/-- Scanning skips over any stretch of characters containing no `[`. -/
theorem scanPairs_skip (ds : List Char) (hds : ∀ c ∈ ds, c ≠ '[') :
    ∀ rest, scanPairs (ds ++ rest) = scanPairs rest := by
  induction ds with
  | nil => intro rest; rfl
  | cons c t ih =>
    intro rest
    rw [List.cons_append, scanPairs_cons,
        matchPair_none_of_head (hds c (List.mem_cons_self c t))]
    exact ih (fun x hx => hds x (List.mem_cons_of_mem c hx)) rest

theorem natDigits_no_bracket (n : Nat) : ∀ c ∈ natDigits n, c ≠ '[' := by
  intro c hc
  have hd := natDigits_all_digits n c hc
  intro heq
  rw [heq] at hd
  exact absurd hd (by decide)

/-- The findall scan of a well-formed `[x1,y1][x2,y2]` string yields exactly
the two coordinate pairs. -/
theorem scanPairs_mkBounds (x1 y1 x2 y2 : Nat) :
    scanPairs (mkBoundsStr x1 y1 x2 y2).data = [(x1, y1), (x2, y2)] := by
  have hnb1 : ∀ c ∈ natDigits x1 ++ (',' :: (natDigits y1 ++ [']'])), c ≠ '[' := by
    intro c hc
    rcases List.mem_append.mp hc with h1 | h2
    · exact natDigits_no_bracket x1 c h1
    · rcases List.mem_cons.mp h2 with h3 | h4
      · rw [h3]; decide
      · rcases List.mem_append.mp h4 with h5 | h6
        · exact natDigits_no_bracket y1 c h5
        · simp only [List.mem_singleton] at h6
          rw [h6]; decide
  have hnb2 : ∀ c ∈ natDigits x2 ++ (',' :: (natDigits y2 ++ [']'])), c ≠ '[' := by
    intro c hc
    rcases List.mem_append.mp hc with h1 | h2
    · exact natDigits_no_bracket x2 c h1
    · rcases List.mem_cons.mp h2 with h3 | h4
      · rw [h3]; decide
      · rcases List.mem_append.mp h4 with h5 | h6
        · exact natDigits_no_bracket y2 c h5
        · simp only [List.mem_singleton] at h6
          rw [h6]; decide
  have hdata : (mkBoundsStr x1 y1 x2 y2).data =
      '[' :: (natDigits x1 ++ (',' :: (natDigits y1 ++ (']' ::
        ('[' :: (natDigits x2 ++ (',' :: (natDigits y2 ++ (']' :: [])))))))))  := by
    show '[' :: natDigits x1 ++ ',' :: natDigits y1 ++ ']' ::
         '[' :: natDigits x2 ++ ',' :: natDigits y2 ++ [']'] = _
    simp
  rw [hdata, scanPairs_cons, matchPair_render]
  have hT1 : natDigits x1 ++ (',' :: (natDigits y1 ++ (']' ::
      ('[' :: (natDigits x2 ++ (',' :: (natDigits y2 ++ (']' :: [])))))))) =
      (natDigits x1 ++ (',' :: (natDigits y1 ++ [']']))) ++
      ('[' :: (natDigits x2 ++ (',' :: (natDigits y2 ++ (']' :: []))))) := by
    simp
  rw [hT1, scanPairs_skip _ hnb1, scanPairs_cons, matchPair_render]
  have hT2 : natDigits x2 ++ (',' :: (natDigits y2 ++ (']' :: []))) =
      (natDigits x2 ++ (',' :: (natDigits y2 ++ [']']))) ++ [] := by
    simp
  rw [hT2, scanPairs_skip _ hnb2]
  rfl

end ADBTools

/-- C7: every well-formed bounds string `[x1,y1][x2,y2]` parses to the four
coordinates and the center is `((x1+x2)/2, (y1+y2)/2)`; every malformed
bounds string — one whose findall scan does not produce exactly two
`[n,m]` pairs — raises the distinguishable `ValueError` (modelled as
`Except.error`), never a default such as `(0,0)`. -/
theorem parse_bounds_center_spec :
    (∀ x1 y1 x2 y2 : Nat,
      ADBTools.parse_bounds (ADBTools.mkBoundsStr x1 y1 x2 y2) =
        Except.ok (x1, y1, x2, y2) ∧
      ADBTools.get_center (x1, y1, x2, y2) = ((x1 + x2) / 2, (y1 + y2) / 2)) ∧
    (∀ s : String, (ADBTools.scanPairs s.data).length ≠ 2 →
      ADBTools.parse_bounds s =
        Except.error ("Could not parse bounds: " ++ s)) := by
  constructor
  · intro x1 y1 x2 y2
    constructor
    · unfold ADBTools.parse_bounds
      rw [ADBTools.scanPairs_mkBounds]
    · rfl
  · intro s hs
    unfold ADBTools.parse_bounds
    rcases hl : ADBTools.scanPairs s.data with _ | ⟨⟨a, b⟩, _ | ⟨⟨c, d⟩, tail⟩⟩
    · rfl
    · rfl
    · rw [hl] at hs
      cases tail with
      | nil => simp at hs
      | cons e t => rfl

/-- Witness for C7: bounds `[100,200][300,260]` (both via the rendered
well-formed string and via the literal) parse to `(100,200,300,260)` with
center `(200,230)`, and a malformed string raises the parse error. -/
theorem parse_bounds_center_spec_holds :
    ADBTools.parse_bounds (ADBTools.mkBoundsStr 100 200 300 260) =
      Except.ok (100, 200, 300, 260) ∧
    ADBTools.get_center (100, 200, 300, 260) = (200, 230) ∧
    ADBTools.parse_bounds "[100,200][300,260]" =
      Except.ok (100, 200, 300, 260) ∧
    ADBTools.parse_bounds "oops" = Except.error ("Could not parse bounds: oops") :=
  ⟨(parse_bounds_center_spec.1 100 200 300 260).1,
   (parse_bounds_center_spec.1 100 200 300 260).2,
   by rfl,
   parse_bounds_center_spec.2 "oops" (by decide)⟩

namespace ADBTools

/-- Matching predicate of `find_element_by_text`: byte-for-byte equality of
the `text` attribute with the query. -/
def exactTextMatch (q : String) (n : UINode) : Bool :=
  n.text = q

/-- Matching predicate of `find_element_by_text_contains`: nonempty `text`
containing the query case-insensitively. -/
def containsTextMatch (q : String) (n : UINode) : Bool :=
  n.text ≠ "" && strContainsSub (strLower n.text) (strLower q)

/-- Matching predicate of `find_element_by_resource_id`: nonempty
`resource-id` containing the query (case-sensitively: Python `in`). -/
def resourceIdMatch (q : String) (n : UINode) : Bool :=
  n.resource_id ≠ "" && strContainsSub n.resource_id q

/-- Matching predicate of `find_element_by_hint`: nonempty `hint`
containing the query case-insensitively. -/
def hintMatch (q : String) (n : UINode) : Bool :=
  n.hint ≠ "" && strContainsSub (strLower n.hint) (strLower q)

/-- The common loop shape shared by the four find functions. -/
def findLoop (p : UINode → Bool) (val : UINode → String) :
    List UINode → Option FoundElement
  | [] => none
  | n :: rest =>
      if p n then
        match parse_bounds n.bounds with
        | Except.ok b => some (mkFound (val n) b)
        | Except.error _ => findLoop p val rest
      else findLoop p val rest

theorem findLoop_eq_firstMatch (p : UINode → Bool) (val : UINode → String) :
    ∀ l, findLoop p val l = firstMatch p val l := by
  intro l
  induction l with
  | nil => rfl
  | cons n rest ih =>
    by_cases hp : p n = true
    · rcases hb : parse_bounds n.bounds with e | b
      · simp [findLoop, firstMatch, List.filter, hp, hb, Except.toOption] at ih ⊢
        exact ih
      · simp [findLoop, firstMatch, List.filter, hp, hb, Except.toOption]
    · have hp' : p n = false := by simpa using hp
      simp [findLoop, firstMatch, List.filter, hp'] at ih ⊢
      exact ih

theorem find_text_eq_findLoop (q : String) :
    ∀ l, find_element_by_text q l = findLoop (exactTextMatch q) (fun _ => q) l := by
  intro l
  induction l with
  | nil => rfl
  | cons n rest ih =>
    by_cases h : n.text = q
    · simp only [find_element_by_text, if_pos h, findLoop, exactTextMatch, h,
        decide_eq_true_eq, if_pos rfl]
      rcases hb : parse_bounds n.bounds with e | b <;> simp [hb, ih]
    · simp only [find_element_by_text, if_neg h, findLoop, exactTextMatch,
        decide_eq_true_eq, if_neg h, ih]

theorem find_text_contains_eq_findLoop (q : String) :
    ∀ l, find_element_by_text_contains q l =
      findLoop (containsTextMatch q) (fun n => n.text) l := by
  intro l
  induction l with
  | nil => rfl
  | cons n rest ih =>
    by_cases h : n.text ≠ "" ∧ strContainsSub (strLower n.text) (strLower q)
    · have hb' : containsTextMatch q n = true := by
        simp [containsTextMatch, h.1, h.2]
      simp only [find_element_by_text_contains, if_pos h, findLoop, hb', if_true]
      rcases hb : parse_bounds n.bounds with e | b <;> simp [hb, ih]
    · have hb' : containsTextMatch q n = false := by
        simp only [containsTextMatch, Bool.and_eq_false_iff]
        by_cases h1 : n.text = ""
        · left; simp [h1]
        · right
          have := fun h2 => h ⟨h1, h2⟩
          simpa using this
      simp only [find_element_by_text_contains, if_neg h, findLoop, hb',
        Bool.false_eq_true, if_false, ih]

theorem find_resource_id_eq_findLoop (q : String) :
    ∀ l, find_element_by_resource_id q l =
      findLoop (resourceIdMatch q) (fun n => n.resource_id) l := by
  intro l
  induction l with
  | nil => rfl
  | cons n rest ih =>
    by_cases h : n.resource_id ≠ "" ∧ strContainsSub n.resource_id q
    · have hb' : resourceIdMatch q n = true := by
        simp [resourceIdMatch, h.1, h.2]
      simp only [find_element_by_resource_id, if_pos h, findLoop, hb', if_true]
      rcases hb : parse_bounds n.bounds with e | b <;> simp [hb, ih]
    · have hb' : resourceIdMatch q n = false := by
        simp only [resourceIdMatch, Bool.and_eq_false_iff]
        by_cases h1 : n.resource_id = ""
        · left; simp [h1]
        · right
          have := fun h2 => h ⟨h1, h2⟩
          simpa using this
      simp only [find_element_by_resource_id, if_neg h, findLoop, hb',
        Bool.false_eq_true, if_false, ih]

theorem find_hint_eq_findLoop (q : String) :
    ∀ l, find_element_by_hint q l =
      findLoop (hintMatch q) (fun n => n.hint) l := by
  intro l
  induction l with
  | nil => rfl
  | cons n rest ih =>
    by_cases h : n.hint ≠ "" ∧ strContainsSub (strLower n.hint) (strLower q)
    · have hb' : hintMatch q n = true := by
        simp [hintMatch, h.1, h.2]
      simp only [find_element_by_hint, if_pos h, findLoop, hb', if_true]
      rcases hb : parse_bounds n.bounds with e | b <;> simp [hb, ih]
    · have hb' : hintMatch q n = false := by
        simp only [hintMatch, Bool.and_eq_false_iff]
        by_cases h1 : n.hint = ""
        · left; simp [h1]
        · right
          have := fun h2 => h ⟨h1, h2⟩
          simpa using this
      simp only [find_element_by_hint, if_neg h, findLoop, hb',
        Bool.false_eq_true, if_false, ih]

theorem firstMatch_none_of_no_match (p : UINode → Bool) (val : UINode → String)
    (l : List UINode) (h : ∀ n ∈ l, p n = false) : firstMatch p val l = none := by
  unfold firstMatch
  have : l.filter (fun n => p n && (parse_bounds n.bounds).toOption.isSome) = [] := by
    rw [List.filter_eq_nil_iff]
    intro n hn
    simp [h n hn]
  rw [this]
  rfl

end ADBTools

/-- Counterexample for C6 as stated: resource-id search is NOT
case-insensitive.  The element's resource-id `my.button` contains the query
`Button` case-insensitively, so a case-insensitive containment search would
match it, but `find_element_by_resource_id` (whose test is Python's
case-sensitive `in`) returns no element. -/
theorem find_element_by_resource_id_case_sensitive_cex :
    strContainsSub (strLower "my.button") (strLower "Button") = true ∧
    ADBTools.find_element_by_resource_id "Button"
      [{ text := "", resource_id := "my.button", hint := "",
         bounds := "[0,0][10,10]" }] = none := by
  exact ⟨by decide, by rfl⟩

/-- C6 (amended): for every snapshot and query, each find function returns
the first element in document order (skipping elements whose bounds fail to
parse) that satisfies its matching predicate, where exact-text matching is
byte-for-byte equality (never mere substring containment), partial-text and
hint matching are case-insensitive substring containment on a nonempty
attribute, and resource-id matching is case-sensitive substring containment
on a nonempty attribute; in particular a query matched by no element's
exact text yields no result even if some element's text contains it, and
resolution is a pure function of the snapshot, hence deterministic. -/
theorem find_element_policy (q : String) (snapshot : List ADBTools.UINode) :
    ADBTools.find_element_by_text q snapshot =
      ADBTools.firstMatch (ADBTools.exactTextMatch q) (fun _ => q) snapshot ∧
    ADBTools.find_element_by_text_contains q snapshot =
      ADBTools.firstMatch (ADBTools.containsTextMatch q) (fun n => n.text) snapshot ∧
    ADBTools.find_element_by_resource_id q snapshot =
      ADBTools.firstMatch (ADBTools.resourceIdMatch q) (fun n => n.resource_id)
        snapshot ∧
    ADBTools.find_element_by_hint q snapshot =
      ADBTools.firstMatch (ADBTools.hintMatch q) (fun n => n.hint) snapshot ∧
    ((∀ n ∈ snapshot, n.text ≠ q) →
      ADBTools.find_element_by_text q snapshot = none) := by
  refine ⟨?_, ?_, ?_, ?_, ?_⟩
  · rw [ADBTools.find_text_eq_findLoop, ADBTools.findLoop_eq_firstMatch]
  · rw [ADBTools.find_text_contains_eq_findLoop, ADBTools.findLoop_eq_firstMatch]
  · rw [ADBTools.find_resource_id_eq_findLoop, ADBTools.findLoop_eq_firstMatch]
  · rw [ADBTools.find_hint_eq_findLoop, ADBTools.findLoop_eq_firstMatch]
  · intro h
    rw [ADBTools.find_text_eq_findLoop, ADBTools.findLoop_eq_firstMatch]
    apply ADBTools.firstMatch_none_of_no_match
    intro n hn
    simp [ADBTools.exactTextMatch, h n hn]

/-- Witness for C6: on a snapshot holding an `ALLOW` button at
`[100,200][300,260]`, exact search for `ALLOW` resolves to center
`(200,230)`; exact search for the mere substring `LLO` finds nothing, while
the partial-text search does find the element. -/
theorem find_element_policy_holds :
    ADBTools.find_element_by_text "ALLOW"
      [{ text := "ALLOW", resource_id := "", hint := "",
         bounds := "[100,200][300,260]" }] =
      some { matched := "ALLOW", bounds := (100, 200, 300, 260),
             center_x := 200, center_y := 230 } ∧
    ADBTools.find_element_by_text "LLO"
      [{ text := "ALLOW", resource_id := "", hint := "",
         bounds := "[100,200][300,260]" }] = none ∧
    ADBTools.find_element_by_text_contains "LLO"
      [{ text := "ALLOW", resource_id := "", hint := "",
         bounds := "[100,200][300,260]" }] =
      some { matched := "ALLOW", bounds := (100, 200, 300, 260),
             center_x := 200, center_y := 230 } := by
  refine ⟨by rfl, ?_, by rfl⟩
  exact (find_element_policy "LLO" _).2.2.2.2 (by decide)

/-! ## Actions

The planner returns, and the executor consumes, a Python dict.  The dict is
modelled as a structure of optional fields — one per key any of the agents
reads — and `dict.get(key, default)` becomes `Option.getD`. -/

structure ActionDict where
  action : Option String := none
  description : Option String := none
  reason : Option String := none
  result : Option String := none
  text : Option String := none
  hint : Option String := none
  resource_id : Option String := none
  package_name : Option String := none
  x : Option Int := none
  y : Option Int := none
  start_x : Option Int := none
  start_y : Option Int := none
  end_x : Option Int := none
  end_y : Option Int := none
  duration_ms : Option Int := none
  seconds : Option ℚ := none
  exact_match : Option Bool := none
deriving DecidableEq, Repr

/-! ## `src/agents/planner.py` — the planning adapter

The external decision service (`model.generate_content`) is modelled as a
function from the attempt index to an outcome: either a response text or a
raised exception's message.  Python's `json.loads` — an external library —
is modelled as a parameter `jsonParse` returning `none` exactly when
`json.JSONDecodeError` is raised. -/

namespace PlannerAgent

/-- `API_CALL_DELAY` (planner.py line 25): minimum seconds between calls. -/
def API_CALL_DELAY : ℚ := 3

/-- `MAX_RETRIES` (planner.py line 26). -/
def MAX_RETRIES : Nat := 2

/-- One decision-service call outcome: a response text, or an exception
with the given message (`str(e)`). -/
inductive ServiceOutcome where
  | ok (text : String)
  | err (message : String)
deriving DecidableEq, Repr

/-- Rate-limit detection (planner.py line 259):
`"429" in error_str or "quota" in error_str.lower() or "rate" in error_str.lower()`. -/
def isTransientError (e : String) : Bool :=
  strContainsSub e "429" || strContainsSub (strLower e) "quota" ||
    strContainsSub (strLower e) "rate"

/-- Code-fence stripping (planner.py lines 234-238): if the trimmed
response starts with a fence, keep the text between the first pair of
fences, drop a leading `json` tag, and trim. -/
def stripCodeFence (s : String) : String :=
  if s.startsWith "```" then
    let t := (s.splitOn "```").getD 1 ""
    let t2 := if t.startsWith "json" then t.drop 4 else t
    t2.trim
  else s

/-- The safe default returned on a JSON parse failure
(planner.py lines 249-253). -/
def default_wait_action : ActionDict :=
  { action := some "wait", seconds := some 1,
    description := some "Waiting due to planning error, will retry" }

/-- The terminal action returned when retries are exhausted or a
non-transient error occurs (planner.py lines 273-278); the reason carries
the underlying error text. -/
def planner_error_action (e : String) : ActionDict :=
  { action := some "test_failed", result := some "fail",
    reason := some ("Planner error after retries: " ++ e),
    description := some "Internal planner error" }

/-- The retry loop of `PlannerAgent.analyze_and_plan` (planner.py lines
213-278), starting at attempt index `attempt` with `retriesLeft` retries
still allowed (the Python loop runs attempts `0..MAX_RETRIES`; a transient
error retries only while `attempt < MAX_RETRIES`).  Returns the action
together with the number of decision-service calls made. -/
def analyze_and_plan_from (service : Nat → ServiceOutcome)
    (jsonParse : String → Option ActionDict) :
    Nat → Nat → ActionDict × Nat
  | attempt, retriesLeft =>
    match service attempt with
    | ServiceOutcome.ok text =>
        match jsonParse (stripCodeFence text.trim) with
        | none => (default_wait_action, 1)
        | some a => (a, 1)
    | ServiceOutcome.err e =>
        if isTransientError e then
          match retriesLeft with
          | 0 => (planner_error_action e, 1)
          | r + 1 =>
              let res := analyze_and_plan_from service jsonParse (attempt + 1) r
              (res.1, res.2 + 1)
        else (planner_error_action e, 1)

/-- `PlannerAgent.analyze_and_plan`: run the retry loop from attempt 0 with
the configured retry ceiling. -/
def analyze_and_plan (service : Nat → ServiceOutcome)
    (jsonParse : String → Option ActionDict) : ActionDict × Nat :=
  analyze_and_plan_from service jsonParse 0 MAX_RETRIES

end PlannerAgent

namespace PlannerAgent

theorem analyze_and_plan_from_calls_le (service : Nat → ServiceOutcome)
    (jsonParse : String → Option ActionDict) :
    ∀ r a, (analyze_and_plan_from service jsonParse a r).2 ≤ r + 1 := by
  intro r
  induction r with
  | zero =>
    intro a
    rw [analyze_and_plan_from]
    rcases hsvc : service a with text | e
    · rcases hp : jsonParse (stripCodeFence text.trim) with _ | act <;> simp [hp]
    · by_cases ht : isTransientError e = true <;> simp [ht]
  | succ r ih =>
    intro a
    rw [analyze_and_plan_from]
    rcases hsvc : service a with text | e
    · rcases hp : jsonParse (stripCodeFence text.trim) with _ | act <;> simp [hp]
    · by_cases ht : isTransientError e = true
      · simp only [ht, if_true]
        show (analyze_and_plan_from service jsonParse (a + 1) r).2 + 1 ≤ r + 1 + 1
        have hle := ih (a + 1)
        omega
      · simp [ht]

/-- If the first `j` attempts all raise transient errors, the loop reaches
attempt `a + j` having made `j` calls so far. -/
theorem analyze_and_plan_from_skip (service : Nat → ServiceOutcome)
    (jsonParse : String → Option ActionDict) :
    ∀ j r a, j ≤ r →
      (∀ i, a ≤ i → i < a + j →
        ∃ e, service i = ServiceOutcome.err e ∧ isTransientError e = true) →
      analyze_and_plan_from service jsonParse a r =
        ((analyze_and_plan_from service jsonParse (a + j) (r - j)).1,
         (analyze_and_plan_from service jsonParse (a + j) (r - j)).2 + j) := by
  intro j
  induction j with
  | zero => intro r a _ _; simp
  | succ j ih =>
    intro r a hjr htrans
    obtain ⟨e, hsvc, htr⟩ := htrans a (le_refl a) (by omega)
    cases r with
    | zero => omega
    | succ r' =>
      have step : analyze_and_plan_from service jsonParse a (r' + 1) =
          ((analyze_and_plan_from service jsonParse (a + 1) r').1,
           (analyze_and_plan_from service jsonParse (a + 1) r').2 + 1) := by
        rw [analyze_and_plan_from]
        simp [hsvc, htr]
      rw [step,
          ih r' (a + 1) (by omega)
            (fun i h1 h2 => htrans i (by omega) (by omega))]
      have h1 : a + 1 + j = a + (j + 1) := by omega
      have h2 : r' - j = r' + 1 - (j + 1) := by omega
      rw [h1, h2]
      simp [Nat.add_assoc]

end PlannerAgent

/-- C4: for every sequence of decision-service outcomes, `analyze_and_plan`
makes at most `MAX_RETRIES + 1` service calls (so at most `MAX_RETRIES`
retries); if every attempt up to the ceiling raises a transient
(rate-limit/quota-signature) error, it returns the well-formed `test_failed`
action carrying the last underlying error text as the reason, after exactly
`MAX_RETRIES + 1` calls; and on the first non-transient error (at attempt
`j`, after `j` transient errors) it returns the `test_failed` action
carrying that error text after `j + 1` calls.  Being a total Lean function,
it never raises. -/
theorem analyze_and_plan_error_handling (service : Nat → PlannerAgent.ServiceOutcome)
    (jsonParse : String → Option ActionDict) :
    (PlannerAgent.analyze_and_plan service jsonParse).2 ≤
      PlannerAgent.MAX_RETRIES + 1 ∧
    ((∀ i, i ≤ PlannerAgent.MAX_RETRIES →
        ∃ e, service i = PlannerAgent.ServiceOutcome.err e ∧
          PlannerAgent.isTransientError e = true) →
      ∃ e, service PlannerAgent.MAX_RETRIES = PlannerAgent.ServiceOutcome.err e ∧
        PlannerAgent.analyze_and_plan service jsonParse =
          (PlannerAgent.planner_error_action e, PlannerAgent.MAX_RETRIES + 1)) ∧
    (∀ j e, j ≤ PlannerAgent.MAX_RETRIES →
      (∀ i, i < j →
        ∃ e2, service i = PlannerAgent.ServiceOutcome.err e2 ∧
          PlannerAgent.isTransientError e2 = true) →
      service j = PlannerAgent.ServiceOutcome.err e →
      PlannerAgent.isTransientError e = false →
      PlannerAgent.analyze_and_plan service jsonParse =
        (PlannerAgent.planner_error_action e, j + 1)) := by
  refine ⟨PlannerAgent.analyze_and_plan_from_calls_le service jsonParse _ 0, ?_, ?_⟩
  · intro h
    obtain ⟨e, hsvc, htr⟩ := h PlannerAgent.MAX_RETRIES (le_refl _)
    refine ⟨e, hsvc, ?_⟩
    unfold PlannerAgent.analyze_and_plan
    rw [PlannerAgent.analyze_and_plan_from_skip service jsonParse
          PlannerAgent.MAX_RETRIES PlannerAgent.MAX_RETRIES 0 (le_refl _)
          (fun i h1 h2 => h i (by omega))]
    have hlast : PlannerAgent.analyze_and_plan_from service jsonParse
        (0 + PlannerAgent.MAX_RETRIES)
        (PlannerAgent.MAX_RETRIES - PlannerAgent.MAX_RETRIES) =
        (PlannerAgent.planner_error_action e, 1) := by
      rw [PlannerAgent.analyze_and_plan_from]
      have h0 : (0 : Nat) + PlannerAgent.MAX_RETRIES = PlannerAgent.MAX_RETRIES := by
        omega
      rw [h0, hsvc]
      simp [htr, Nat.sub_self]
    rw [hlast]
    simp [Nat.add_comm]
  · intro j e hj hpre hsvc hnt
    unfold PlannerAgent.analyze_and_plan
    rw [PlannerAgent.analyze_and_plan_from_skip service jsonParse
          j PlannerAgent.MAX_RETRIES 0 hj
          (fun i h1 h2 => hpre i (by omega))]
    have hlast : PlannerAgent.analyze_and_plan_from service jsonParse
        (0 + j) (PlannerAgent.MAX_RETRIES - j) =
        (PlannerAgent.planner_error_action e, 1) := by
      rw [PlannerAgent.analyze_and_plan_from]
      have h0 : (0 : Nat) + j = j := by omega
      rw [h0, hsvc]
      simp [hnt]
    rw [hlast]
    simp [Nat.add_comm]

/-- Witness for C4: against a service that raises a `429` quota error on
every attempt, the planner returns the `test_failed` action wrapping that
error after exactly `MAX_RETRIES + 1 = 3` calls. -/
theorem analyze_and_plan_error_handling_holds :
    PlannerAgent.analyze_and_plan
      (fun _ => PlannerAgent.ServiceOutcome.err "Error 429: quota exceeded")
      (fun _ => none) =
      (PlannerAgent.planner_error_action "Error 429: quota exceeded", 3) := by
  obtain ⟨e, hsvc, heq⟩ :=
    (analyze_and_plan_error_handling
      (fun _ => PlannerAgent.ServiceOutcome.err "Error 429: quota exceeded")
      (fun _ => none)).2.1
      (fun i _ => ⟨"Error 429: quota exceeded", rfl, by decide⟩)
  injection hsvc with h
  subst h
  exact heq

/-- C5: whenever the loop reaches a decision-service response (at attempt
`j`, all earlier attempts having raised transient errors) whose text fails
structural JSON parsing after code-fence stripping, the planner makes no
further service calls (exactly `j + 1` calls total) and returns, without
raising, the default `wait(1 second)` action whose description notes the
planning error. -/
theorem parse_failure_default_wait (service : Nat → PlannerAgent.ServiceOutcome)
    (jsonParse : String → Option ActionDict) (j : Nat) (text : String)
    (hj : j ≤ PlannerAgent.MAX_RETRIES)
    (hpre : ∀ i, i < j →
      ∃ e, service i = PlannerAgent.ServiceOutcome.err e ∧
        PlannerAgent.isTransientError e = true)
    (hok : service j = PlannerAgent.ServiceOutcome.ok text)
    (hparse : jsonParse (PlannerAgent.stripCodeFence text.trim) = none) :
    PlannerAgent.analyze_and_plan service jsonParse =
      (PlannerAgent.default_wait_action, j + 1) := by
  unfold PlannerAgent.analyze_and_plan
  rw [PlannerAgent.analyze_and_plan_from_skip service jsonParse
        j PlannerAgent.MAX_RETRIES 0 hj
        (fun i h1 h2 => hpre i (by omega))]
  have hlast : PlannerAgent.analyze_and_plan_from service jsonParse
      (0 + j) (PlannerAgent.MAX_RETRIES - j) =
      (PlannerAgent.default_wait_action, 1) := by
    rw [PlannerAgent.analyze_and_plan_from]
    have h0 : (0 : Nat) + j = j := by omega
    rw [h0, hok]
    simp [hparse]
  rw [hlast]
  simp [Nat.add_comm]

/-- Witness for C5: a service returning unparseable text on the first
attempt yields the default wait action after a single call. -/
theorem parse_failure_default_wait_holds :
    PlannerAgent.analyze_and_plan
      (fun _ => PlannerAgent.ServiceOutcome.ok "this is not JSON")
      (fun _ => none) = (PlannerAgent.default_wait_action, 1) :=
  parse_failure_default_wait
    (fun _ => PlannerAgent.ServiceOutcome.ok "this is not JSON")
    (fun _ => none) 0 "this is not JSON" (by decide)
    (fun i hi => absurd hi (by omega)) rfl rfl

namespace PlannerAgent

/-- `PlannerAgent._wait_for_rate_limit` (planner.py lines 141-146) with an
explicit clock: given the recorded time of the previous call (`last`, the
instance field `last_api_call_time`, initially 0) and the current wall
clock `now`, returns the time at which the call proceeds —
`elapsed = now - last; if elapsed < API_CALL_DELAY: sleep(API_CALL_DELAY - elapsed)`. -/
def wait_for_rate_limit (last now : ℚ) : ℚ :=
  if now - last < API_CALL_DELAY then now + (API_CALL_DELAY - (now - last))
  else now

/-- The timestamps recorded for a sequence of decision-service calls made
through one `PlannerAgent` instance.  Every `generate_content` call in
`analyze_and_plan` (planner.py lines 215-221) is immediately preceded by
`_wait_for_rate_limit()` and by recording `last_api_call_time = time.time()`;
between one call and the start of the next wait, an arbitrary ambient delay
`d` elapses (service latency, step execution, retry backoff sleeps).  The
sleep performed by the rate limiter advances the clock by exactly the
remaining time. -/
def planCallTimes : ℚ → ℚ → List ℚ → List ℚ
  | _, _, [] => []
  | last, now, d :: ds =>
      let t := wait_for_rate_limit last (now + d)
      t :: planCallTimes t t ds

theorem wait_for_rate_limit_lower (last now : ℚ) :
    last + API_CALL_DELAY ≤ wait_for_rate_limit last now := by
  unfold wait_for_rate_limit
  by_cases h : now - last < API_CALL_DELAY
  · rw [if_pos h]; linarith
  · rw [if_neg h]; linarith [not_lt.mp h]

theorem planCallTimes_chain : ∀ (ds : List ℚ) (last now : ℚ),
    List.Chain' (fun a b => a + API_CALL_DELAY ≤ b) (planCallTimes last now ds) := by
  intro ds
  induction ds with
  | nil => intro last now; simp [planCallTimes]
  | cons d rest ih =>
    intro last now
    rw [planCallTimes]
    apply List.chain'_cons'.mpr
    refine ⟨?_, ih _ _⟩
    intro b hb
    cases rest with
    | nil => simp [planCallTimes] at hb
    | cons d2 rest2 =>
      rw [planCallTimes] at hb
      simp only [List.head?_cons, Option.mem_def, Option.some.injEq] at hb
      rw [← hb]
      exact wait_for_rate_limit_lower _ _

end PlannerAgent

/-- C8: for every start time and every sequence of ambient delays between
calls, consecutive recorded decision-service call times through one
`PlannerAgent` instance (retries included) are never closer than
`API_CALL_DELAY`; and whenever less than `API_CALL_DELAY` has elapsed since
the previous recorded call, the rate limiter sleeps for exactly the
remainder before the call proceeds. -/
theorem rate_limiter_min_spacing (t0 : ℚ) (delays : List ℚ) :
    List.Chain' (fun a b => a + PlannerAgent.API_CALL_DELAY ≤ b)
      (PlannerAgent.planCallTimes 0 t0 delays) ∧
    (∀ last now : ℚ, now - last < PlannerAgent.API_CALL_DELAY →
      PlannerAgent.wait_for_rate_limit last now =
        now + (PlannerAgent.API_CALL_DELAY - (now - last))) := by
  constructor
  · exact PlannerAgent.planCallTimes_chain delays 0 t0
  · intro last now h
    unfold PlannerAgent.wait_for_rate_limit
    rw [if_pos h]

/-- Witness for C8: starting at time 10 with two back-to-back calls, the
recorded call times satisfy the spacing constraint, and a call attempted 1
second after the previous one is delayed by exactly 2 seconds. -/
theorem rate_limiter_min_spacing_holds :
    List.Chain' (fun a b => a + PlannerAgent.API_CALL_DELAY ≤ b)
      (PlannerAgent.planCallTimes 0 10 [0, 0]) ∧
    PlannerAgent.wait_for_rate_limit 10 11 = 11 + (3 - (11 - 10)) :=
  ⟨(rate_limiter_min_spacing 10 [0, 0]).1,
   (rate_limiter_min_spacing 10 [0, 0]).2 10 11 (by norm_num [PlannerAgent.API_CALL_DELAY])⟩

/-! ## `src/agents/executor.py` — the action executor

The ADB device backend is modelled as a record of primitives, each of which
either returns its result message or raises (`Except.error`).  Besides the
`(success, message, screenshot)` triple the embedded `execute` returns a
trace of the effects it performed — device-primitive invocations, settle
sleeps, and screenshot-capture attempts — so that "no device primitive is
dispatched" is a provable statement. -/

namespace ExecutorAgent

/-- `SCREENSHOT_DELAY` (settings.py line 39): settle delay before the
post-action screenshot. -/
def SCREENSHOT_DELAY : ℚ := 2

/-- An observable effect of one `execute` call. -/
inductive Effect where
  | sleep (seconds : ℚ)
  | callPrim (name : String)
  | captureScreenshot
deriving DecidableEq, Repr

/-- The device-automation backend (`ADBTools` instance) as used by
`ExecutorAgent.execute`; every method may raise. -/
structure ADBBackend where
  tap : Int → Int → Except String String
  double_tap : Int → Int → Except String String
  long_press : Int → Int → Int → Except String String
  type_text : String → Except String String
  swipe : Int → Int → Int → Int → Int → Except String String
  scroll_up : Except String String
  scroll_down : Except String String
  press_back : Except String String
  press_home : Except String String
  press_enter : Except String String
  press_menu : Except String String
  launch_app : String → Except String String
  close_app : String → Except String String
  wait : ℚ → Except String String
  clear_text_field : Except String String
  tap_element_by_text : String → Bool → Except String String
  tap_element_by_resource_id : String → Except String String
  tap_element_by_hint : String → Except String String
  get_screenshot_base64 : Except String String

/-- The result triple of `execute`, plus the effect trace. -/
structure ExecOutcome where
  success : Bool
  message : String
  screenshot : Option String
  trace : List Effect
deriving DecidableEq, Repr

/-- Executor instance state: `last_action` and `action_count`
(executor.py lines 33-34). -/
structure ExecutorState where
  last_action : Option ActionDict := none
  action_count : Nat := 0
deriving DecidableEq, Repr

/-- The best-effort screenshot attempt of the exception handler
(executor.py lines 177-180): a failure degrades to `none`. -/
def captureAttempt (adb : ADBBackend) : Option String :=
  match adb.get_screenshot_base64 with
  | Except.ok s => some s
  | Except.error _ => none

/-- The `except Exception` handler (executor.py lines 172-182): catch the
error, return `success = false` with the error text, and attempt a
best-effort screenshot. -/
def catchOutcome (adb : ADBBackend) (e : String) (tr : List Effect) : ExecOutcome :=
  { success := false, message := "Execution error: " ++ e,
    screenshot := captureAttempt adb,
    trace := tr ++ [Effect.captureScreenshot] }

/-- The common fall-through tail (executor.py lines 163-170): settle sleep,
screenshot, `success = true`; the Bool reports whether `last_action` is to
be updated (only when the screenshot succeeded, since a capture failure
jumps to the handler before line 167). -/
def normalTail (adb : ADBBackend) (result_message : String) (tr : List Effect) :
    Bool × ExecOutcome :=
  match adb.get_screenshot_base64 with
  | Except.ok s =>
      (true, { success := true, message := result_message, screenshot := some s,
               trace := tr ++ [Effect.sleep SCREENSHOT_DELAY,
                               Effect.captureScreenshot] })
  | Except.error e =>
      (false, catchOutcome adb e
        (tr ++ [Effect.sleep SCREENSHOT_DELAY, Effect.captureScreenshot]))

/-- A plain device primitive followed by the common tail. -/
def runPrim (adb : ADBBackend) (name : String) (r : Except String String) :
    Bool × ExecOutcome :=
  match r with
  | Except.ok m => normalTail adb m [Effect.callPrim name]
  | Except.error e => (false, catchOutcome adb e [Effect.callPrim name])

/-- A `tap_by_*` symbolic tap (executor.py lines 118-138): if the result
message reports `Could not find`, return `success = false` with a
diagnostic screenshot (still inside the `try`); otherwise the common tail. -/
def runTapBy (adb : ADBBackend) (name : String) (r : Except String String) :
    Bool × ExecOutcome :=
  match r with
  | Except.ok m =>
      if strContainsSub m "Could not find" then
        match adb.get_screenshot_base64 with
        | Except.ok s =>
            (false, { success := false, message := m, screenshot := some s,
                      trace := [Effect.callPrim name, Effect.captureScreenshot] })
        | Except.error e =>
            (false, catchOutcome adb e
              [Effect.callPrim name, Effect.captureScreenshot])
      else normalTail adb m [Effect.callPrim name]
  | Except.error e => (false, catchOutcome adb e [Effect.callPrim name])

/-- A terminal `test_complete`/`test_failed` action (executor.py lines
140-156): no device primitive, settle sleep, final screenshot,
`success = true`; `last_action` is not updated (the branch returns before
line 167). -/
def runTerminal (adb : ADBBackend) (result_message : String) :
    Bool × ExecOutcome :=
  match adb.get_screenshot_base64 with
  | Except.ok s =>
      (false, { success := true, message := result_message, screenshot := some s,
                trace := [Effect.sleep SCREENSHOT_DELAY,
                          Effect.captureScreenshot] })
  | Except.error e =>
      (false, catchOutcome adb e
        [Effect.sleep SCREENSHOT_DELAY, Effect.captureScreenshot])

/-- The dispatch on `action.get("action", "").lower()` (executor.py lines
47-161), returning whether `last_action` is updated and the outcome. -/
def executeDispatch (adb : ADBBackend) (a : ActionDict) : Bool × ExecOutcome :=
  let t := strLower (a.action.getD "")
  if t = "tap" then runPrim adb "tap" (adb.tap (a.x.getD 0) (a.y.getD 0))
  else if t = "double_tap" then
    runPrim adb "double_tap" (adb.double_tap (a.x.getD 0) (a.y.getD 0))
  else if t = "long_press" then
    runPrim adb "long_press"
      (adb.long_press (a.x.getD 0) (a.y.getD 0) (a.duration_ms.getD 1000))
  else if t = "type_text" then
    runPrim adb "type_text" (adb.type_text (a.text.getD ""))
  else if t = "swipe" then
    runPrim adb "swipe"
      (adb.swipe (a.start_x.getD 0) (a.start_y.getD 0) (a.end_x.getD 0)
        (a.end_y.getD 0) (a.duration_ms.getD 300))
  else if t = "scroll_up" then runPrim adb "scroll_up" adb.scroll_up
  else if t = "scroll_down" then runPrim adb "scroll_down" adb.scroll_down
  else if t = "press_back" then runPrim adb "press_back" adb.press_back
  else if t = "press_home" then runPrim adb "press_home" adb.press_home
  else if t = "press_enter" then runPrim adb "press_enter" adb.press_enter
  else if t = "press_menu" then runPrim adb "press_menu" adb.press_menu
  else if t = "launch_app" then
    runPrim adb "launch_app" (adb.launch_app (a.package_name.getD ""))
  else if t = "close_app" then
    runPrim adb "close_app" (adb.close_app (a.package_name.getD ""))
  else if t = "wait" then runPrim adb "wait" (adb.wait (a.seconds.getD 1))
  else if t = "clear_text" then runPrim adb "clear_text" adb.clear_text_field
  else if t = "tap_by_text" then
    runTapBy adb "tap_element_by_text"
      (adb.tap_element_by_text (a.text.getD "") (a.exact_match.getD true))
  else if t = "tap_by_resource_id" then
    runTapBy adb "tap_element_by_resource_id"
      (adb.tap_element_by_resource_id (a.resource_id.getD ""))
  else if t = "tap_by_hint" then
    runTapBy adb "tap_element_by_hint"
      (adb.tap_element_by_hint (a.hint.getD ""))
  else if t = "test_complete" then
    runTerminal adb ("Test completed with result: " ++ a.result.getD "pass")
  else if t = "test_failed" then
    runTerminal adb ("Test failed: " ++ a.reason.getD "Unknown reason")
  else
    (false, { success := false, message := "Unknown action type: " ++ t,
              screenshot := none, trace := [] })

/-- `ExecutorAgent.execute` (executor.py lines 37-182): unconditionally
increment `action_count` (line 51, before the `try`), dispatch, and update
`last_action` on the fall-through success path. -/
def execute (adb : ADBBackend) (st : ExecutorState) (a : ActionDict) :
    ExecutorState × ExecOutcome :=
  let st1 : ExecutorState := { st with action_count := st.action_count + 1 }
  let d := executeDispatch adb a
  ({ st1 with last_action := if d.1 then some a else st1.last_action }, d.2)

/-- `ExecutorAgent.get_action_count` (executor.py lines 193-195). -/
def get_action_count (st : ExecutorState) : Nat :=
  st.action_count

/-- `ExecutorAgent.reset` (executor.py lines 197-201). -/
def reset (st : ExecutorState) : ExecutorState :=
  { st with last_action := none, action_count := 0 }

/-- Execute a list of actions in sequence, threading the executor state. -/
def runActions (adb : ADBBackend) : ExecutorState → List ActionDict → ExecutorState
  | st, [] => st
  | st, a :: rest => runActions adb (execute adb st a).1 rest

/-- A constant backend for concrete runs: every primitive returns the empty
message, and screenshot capture gives `shot`. -/
def constBackend (shot : Except String String) : ADBBackend :=
  { tap := fun _ _ => Except.ok "", double_tap := fun _ _ => Except.ok "",
    long_press := fun _ _ _ => Except.ok "", type_text := fun _ => Except.ok "",
    swipe := fun _ _ _ _ _ => Except.ok "", scroll_up := Except.ok "",
    scroll_down := Except.ok "", press_back := Except.ok "",
    press_home := Except.ok "", press_enter := Except.ok "",
    press_menu := Except.ok "", launch_app := fun _ => Except.ok "",
    close_app := fun _ => Except.ok "", wait := fun _ => Except.ok "",
    clear_text_field := Except.ok "",
    tap_element_by_text := fun _ _ => Except.ok "",
    tap_element_by_resource_id := fun _ => Except.ok "",
    tap_element_by_hint := fun _ => Except.ok "",
    get_screenshot_base64 := shot }

end ExecutorAgent

namespace ExecutorAgent

theorem executeDispatch_terminal (adb : ADBBackend) (a : ActionDict)
    (h : strLower (a.action.getD "") = "test_complete" ∨
         strLower (a.action.getD "") = "test_failed") :
    executeDispatch adb a =
      runTerminal adb
        (if strLower (a.action.getD "") = "test_complete" then
          "Test completed with result: " ++ a.result.getD "pass"
         else "Test failed: " ++ a.reason.getD "Unknown reason") := by
  rcases h with h | h <;> rw [executeDispatch] <;> simp [h]

end ExecutorAgent

/-- C9 (amended): executing a terminal action (`test_complete` or
`test_failed`) dispatches no device primitive for the action itself and
always attempts a final screenshot after the fixed settle delay; when
screenshot capture succeeds, execute returns `success = true` with that
screenshot; when capture throws, the executor catches the exception and
returns `success = false` with the error text and no screenshot — it never
raises. -/
theorem execute_terminal_actions (adb : ExecutorAgent.ADBBackend)
    (st : ExecutorAgent.ExecutorState) (a : ActionDict)
    (h : strLower (a.action.getD "") = "test_complete" ∨
         strLower (a.action.getD "") = "test_failed") :
    (∀ n, ExecutorAgent.Effect.callPrim n ∉
      (ExecutorAgent.execute adb st a).2.trace) ∧
    (∀ s, adb.get_screenshot_base64 = Except.ok s →
      (ExecutorAgent.execute adb st a).2.success = true ∧
      (ExecutorAgent.execute adb st a).2.screenshot = some s ∧
      (ExecutorAgent.execute adb st a).2.trace =
        [ExecutorAgent.Effect.sleep ExecutorAgent.SCREENSHOT_DELAY,
         ExecutorAgent.Effect.captureScreenshot]) ∧
    (∀ e, adb.get_screenshot_base64 = Except.error e →
      (ExecutorAgent.execute adb st a).2.success = false ∧
      (ExecutorAgent.execute adb st a).2.message = "Execution error: " ++ e ∧
      (ExecutorAgent.execute adb st a).2.screenshot = none) := by
  have hout : (ExecutorAgent.execute adb st a).2 =
      (ExecutorAgent.executeDispatch adb a).2 := rfl
  rw [hout, ExecutorAgent.executeDispatch_terminal adb a h]
  rcases hshot : adb.get_screenshot_base64 with e | s
  · refine ⟨?_, ?_, ?_⟩
    · intro n
      simp [ExecutorAgent.runTerminal, hshot, ExecutorAgent.catchOutcome,
        ExecutorAgent.captureAttempt]
    · intro s2 hs2
      exact absurd hs2 (by simp)
    · intro e2 he2
      injection he2 with he3
      subst he3
      simp [ExecutorAgent.runTerminal, hshot, ExecutorAgent.catchOutcome,
        ExecutorAgent.captureAttempt]
  · refine ⟨?_, ?_, ?_⟩
    · intro n
      simp [ExecutorAgent.runTerminal, hshot]
    · intro s2 hs2
      injection hs2 with hs3
      subst hs3
      simp [ExecutorAgent.runTerminal, hshot]
    · intro e2 he2
      exact absurd he2 (by simp)

/-- Counterexample for C9 as stated: when screenshot capture throws, the
exception handler converts the terminal action's result to
`success = false` — so success is NOT reported for every device-backend
behavior. -/
theorem execute_terminal_screenshot_failure_cex :
    (ExecutorAgent.execute
      (ExecutorAgent.constBackend (Except.error "screencap failed"))
      { } { action := some "test_complete", result := some "pass" }).2.success =
      false ∧
    (ExecutorAgent.execute
      (ExecutorAgent.constBackend (Except.error "screencap failed"))
      { } { action := some "test_complete", result := some "pass" }).2.message =
      "Execution error: screencap failed" := by
  exact ⟨rfl, rfl⟩

/-- Witness for C9 (amended): with a backend whose capture returns `"img"`,
executing `test_complete` succeeds with that screenshot and a trace holding
no device-primitive call. -/
theorem execute_terminal_actions_holds :
    (∀ n, ExecutorAgent.Effect.callPrim n ∉
      (ExecutorAgent.execute (ExecutorAgent.constBackend (Except.ok "img"))
        { } { action := some "test_complete", result := some "pass" }).2.trace) ∧
    (ExecutorAgent.execute (ExecutorAgent.constBackend (Except.ok "img"))
      { } { action := some "test_complete", result := some "pass" }).2.success =
      true ∧
    (ExecutorAgent.execute (ExecutorAgent.constBackend (Except.ok "img"))
      { } { action := some "test_complete", result := some "pass" }).2.screenshot =
      some "img" := by
  have h := execute_terminal_actions
    (ExecutorAgent.constBackend (Except.ok "img")) { }
    { action := some "test_complete", result := some "pass" }
    (Or.inl (by decide))
  exact ⟨h.1, (h.2.1 "img" rfl).1, (h.2.1 "img" rfl).2.1⟩

/-- C10: `execute` increments the action counter by exactly one on every
call — for every action (known, unknown or terminal) and every backend
behavior, whether or not the call succeeds — `reset` zeroes it, and after a
reset followed by executing a list of actions, `get_action_count` returns
the list's length. -/
theorem action_counter_invariant :
    (∀ (adb : ExecutorAgent.ADBBackend) (st : ExecutorAgent.ExecutorState)
        (a : ActionDict),
      ExecutorAgent.get_action_count (ExecutorAgent.execute adb st a).1 =
        ExecutorAgent.get_action_count st + 1) ∧
    (∀ st, ExecutorAgent.get_action_count (ExecutorAgent.reset st) = 0) ∧
    (∀ (adb : ExecutorAgent.ADBBackend) (st : ExecutorAgent.ExecutorState)
        (as : List ActionDict),
      ExecutorAgent.get_action_count
        (ExecutorAgent.runActions adb (ExecutorAgent.reset st) as) = as.length) := by
  have hstep : ∀ (adb : ExecutorAgent.ADBBackend) (st : ExecutorAgent.ExecutorState)
      (a : ActionDict),
      ExecutorAgent.get_action_count (ExecutorAgent.execute adb st a).1 =
        ExecutorAgent.get_action_count st + 1 := fun adb st a => rfl
  refine ⟨hstep, fun st => rfl, ?_⟩
  have hrun : ∀ (adb : ExecutorAgent.ADBBackend) (as : List ActionDict)
      (st : ExecutorAgent.ExecutorState),
      ExecutorAgent.get_action_count (ExecutorAgent.runActions adb st as) =
        ExecutorAgent.get_action_count st + as.length := by
    intro adb as
    induction as with
    | nil => intro st; simp [ExecutorAgent.runActions]
    | cons a rest ih =>
      intro st
      rw [ExecutorAgent.runActions, ih, hstep]
      simp [List.length_cons]
      omega
  intro adb st as
  rw [hrun adb as (ExecutorAgent.reset st)]
  simp [ExecutorAgent.reset, ExecutorAgent.get_action_count]

/-! ## `src/agents/supervisor.py` — the orchestration loop and classifier

The planner is modelled as a function from (current screenshot, prior-action
summaries, step number) to the action it returns; the executor as a function
from the action to the `(success, message, screenshot)` triple.  The loop of
`run_test` (lines 96-161) is embedded with a fuel argument counting the
steps remaining out of `max_steps`; fuel 0 is the `for ... else` branch.
The model also counts the planning calls made, so "no planning call occurs
at step k+1" is a provable statement. -/

namespace SupervisorAgent

/-- One entry of the `previous_actions` history passed to the planner
(supervisor.py lines 149-154). -/
structure PrevAction where
  step : Nat
  action : String
  description : String
  success : Bool
deriving DecidableEq, Repr

/-- `StepRecord` dataclass (supervisor.py lines 27-35), minus the wall-clock
timestamp.  `_record_step` (lines 199-222) derives `screenshot_path` from
the test name and step number when a screenshot is present. -/
structure StepRecord where
  step_number : Nat
  action : ActionDict
  success : Bool
  message : String
  screenshot_path : Option String
deriving DecidableEq, Repr

/-- The state of the loop when it finishes: final status, final message,
the recorded steps, and the number of planning calls made. -/
structure LoopResult where
  status : TestStatus
  message : String
  records : List StepRecord
  plannerCalls : Nat
deriving DecidableEq, Repr

/-- `_record_step` (supervisor.py lines 199-222): the saved screenshot file
is named by test name and step index. -/
def record_step (testName : String) (step : Nat) (a : ActionDict)
    (success : Bool) (message : String) (screenshot : Option String) :
    StepRecord :=
  { step_number := step, action := a, success := success, message := message,
    screenshot_path :=
      screenshot.map (fun _ => testName ++ "_step_" ++ toString step ++ ".png") }

/-- The `for step in range(1, MAX_STEPS + 1)` loop of `run_test`
(supervisor.py lines 96-160).  `fuel` is `max_steps + 1 - step`; when it
reaches 0 the `else:` branch sets status ERROR with a message naming the
budget. -/
def runSteps (planner : String → List PrevAction → Nat → ActionDict)
    (executor : ActionDict → Bool × String × Option String)
    (testName : String) (max_steps : Nat) :
    Nat → Nat → String → List PrevAction → List StepRecord → Nat → LoopResult
  | 0, _step, _screenshot, _prev, records, calls =>
      { status := TestStatus.error,
        message := "Test did not complete within " ++ toString max_steps ++ " steps",
        records := records, plannerCalls := calls }
  | fuel + 1, step, screenshot, prev, records, calls =>
      let action := planner screenshot prev step
      let atype := action.action.getD ""
      if atype = "test_complete" then
        let r := executor action
        { status := TestStatus.passed,
          message := action.description.getD "Test completed successfully",
          records := records ++
            [record_step testName step action r.1 r.2.1 r.2.2],
          plannerCalls := calls + 1 }
      else if atype = "test_failed" then
        let r := executor action
        { status := TestStatus.failed,
          message := action.reason.getD "Unknown reason",
          records := records ++
            [record_step testName step action r.1 r.2.1 r.2.2],
          plannerCalls := calls + 1 }
      else
        let r := executor action
        runSteps planner executor testName max_steps fuel (step + 1)
          (r.2.2.getD screenshot)
          (prev ++ [{ step := step, action := atype,
                      description := action.description.getD "",
                      success := r.1 }])
          (records ++ [record_step testName step action r.1 r.2.1 r.2.2])
          (calls + 1)

/-- `_create_result` (supervisor.py lines 224-240): one step summary string
per step record; screenshots are the recorded paths. -/
def create_result (tc : TestCase) (status : TestStatus) (message : String)
    (records : List StepRecord) : TestResult :=
  { test_case := tc, status := status, actual_result := message,
    steps_executed := records.map (fun r =>
      "Step " ++ toString r.step_number ++ ": " ++ r.action.action.getD "unknown" ++
      " - " ++ r.action.description.getD ""),
    screenshots := records.filterMap (fun r => r.screenshot_path) }

/-- `run_test` (supervisor.py lines 57-169) from the point where the loop
starts (agents reset, emulator prepared, initial screenshot captured):
run the bounded loop, then build the `TestResult`.  Returns the result
together with the number of planning calls made. -/
def run_test (planner : String → List PrevAction → Nat → ActionDict)
    (executor : ActionDict → Bool × String × Option String)
    (tc : TestCase) (initialScreenshot : String) (max_steps : Nat) :
    TestResult × Nat :=
  let res := runSteps planner executor tc.name max_steps max_steps 1
    initialScreenshot [] [] 0
  (create_result tc res.status res.message res.records, res.plannerCalls)

/-- `MAX_STEPS` (settings.py line 38). -/
def MAX_STEPS : Nat := 20

/-- An action counts as terminal when its `action` field is `test_complete`
or `test_failed` (supervisor.py lines 111-132). -/
def isTerminal (a : ActionDict) : Bool :=
  a.action.getD "" = "test_complete" || a.action.getD "" = "test_failed"

end SupervisorAgent

namespace SupervisorAgent

/-- The list of step numbers `step, step+1, ..., step+n-1`. -/
def stepsFrom (step : Nat) : Nat → List Nat
  | 0 => []
  | n + 1 => step :: stepsFrom (step + 1) n

theorem stepsFrom_length (step : Nat) : ∀ n, (stepsFrom step n).length = n := by
  intro n
  induction n generalizing step with
  | zero => rfl
  | succ n ih => simp [stepsFrom, ih]

/-- C3's loop invariant: if the planner never returns a terminal action,
every remaining step makes exactly one planning call, one execution and one
record, and the loop falls through to the ERROR branch. -/
theorem runSteps_all_nonterminal
    (planner : String → List PrevAction → Nat → ActionDict)
    (executor : ActionDict → Bool × String × Option String)
    (testName : String) (max_steps : Nat)
    (h : ∀ scr prev s, isTerminal (planner scr prev s) = false) :
    ∀ fuel step scr prev records calls,
      (runSteps planner executor testName max_steps fuel step scr prev records
        calls).status = TestStatus.error ∧
      (runSteps planner executor testName max_steps fuel step scr prev records
        calls).message =
        "Test did not complete within " ++ toString max_steps ++ " steps" ∧
      (runSteps planner executor testName max_steps fuel step scr prev records
        calls).plannerCalls = calls + fuel := by
  intro fuel
  induction fuel with
  | zero => intro step scr prev records calls; exact ⟨rfl, rfl, rfl⟩
  | succ fuel ih =>
    intro step scr prev records calls
    have hf := h scr prev step
    simp only [isTerminal, Bool.or_eq_false_iff, decide_eq_false_iff_not] at hf
    obtain ⟨hne1, hne2⟩ := hf
    rw [runSteps]
    simp only [hne1, if_false, hne2, ite_false]
    have := ih (step + 1) ((executor (planner scr prev step)).2.2.getD scr)
      (prev ++ [{ step := step,
                  action := (planner scr prev step).action.getD "",
                  description := (planner scr prev step).description.getD "",
                  success := (executor (planner scr prev step)).1 }])
      (records ++ [record_step testName step (planner scr prev step)
        (executor (planner scr prev step)).1
        (executor (planner scr prev step)).2.1
        (executor (planner scr prev step)).2.2])
      (calls + 1)
    refine ⟨this.1, this.2.1, ?_⟩
    rw [this.2.2]
    omega

end SupervisorAgent

/-- C3: if all planning calls return non-terminal actions, the run's final
status is ERROR — never PASSED or FAILED — the final message names the
configured step budget, exactly budget-many planning calls are made, and
this holds for every executor behavior (step failures included). -/
theorem budget_exhaustion_error
    (planner : String → List SupervisorAgent.PrevAction → Nat → ActionDict)
    (executor : ActionDict → Bool × String × Option String)
    (tc : TestCase) (scr0 : String) (max_steps : Nat)
    (h : ∀ scr prev s, SupervisorAgent.isTerminal (planner scr prev s) = false) :
    (SupervisorAgent.run_test planner executor tc scr0 max_steps).1.status =
      TestStatus.error ∧
    (SupervisorAgent.run_test planner executor tc scr0 max_steps).1.actual_result =
      "Test did not complete within " ++ toString max_steps ++ " steps" ∧
    (SupervisorAgent.run_test planner executor tc scr0 max_steps).2 = max_steps := by
  have hloop := SupervisorAgent.runSteps_all_nonterminal planner executor tc.name
    max_steps h max_steps 1 scr0 [] [] 0
  unfold SupervisorAgent.run_test
  refine ⟨?_, ?_, ?_⟩
  · simp only [SupervisorAgent.create_result, hloop.1]
  · simp only [SupervisorAgent.create_result, hloop.2.1]
  · simp only [hloop.2.2]
    omega

/-- Witness for C3: a planner that always proposes a tap, against a 20-step
budget (`MAX_STEPS`), yields status ERROR after exactly 20 planning calls
with the message naming the budget. -/
theorem budget_exhaustion_error_holds :
    (SupervisorAgent.run_test
      (fun _ _ _ => { action := some "tap", x := some 1, y := some 2 })
      (fun _ => (true, "ok", some "shot"))
      { name := "t", description := "", expected_result := "",
        should_pass := true }
      "s0" SupervisorAgent.MAX_STEPS).1.status = TestStatus.error ∧
    (SupervisorAgent.run_test
      (fun _ _ _ => { action := some "tap", x := some 1, y := some 2 })
      (fun _ => (true, "ok", some "shot"))
      { name := "t", description := "", expected_result := "",
        should_pass := true }
      "s0" SupervisorAgent.MAX_STEPS).1.actual_result =
      "Test did not complete within 20 steps" ∧
    (SupervisorAgent.run_test
      (fun _ _ _ => { action := some "tap", x := some 1, y := some 2 })
      (fun _ => (true, "ok", some "shot"))
      { name := "t", description := "", expected_result := "",
        should_pass := true }
      "s0" SupervisorAgent.MAX_STEPS).2 = 20 := by
  have h := budget_exhaustion_error
    (fun _ _ _ => { action := some "tap", x := some 1, y := some 2 })
    (fun _ => (true, "ok", some "shot"))
    { name := "t", description := "", expected_result := "",
      should_pass := true }
    "s0" SupervisorAgent.MAX_STEPS
    (fun _ _ _ => rfl)
  exact ⟨h.1, h.2.1.trans (by rfl), h.2.2⟩

namespace SupervisorAgent

/-- C2's loop invariant: if the planner is non-terminal strictly before step
`k` and returns the terminal action `tstr` at step `k`, the loop starting at
`step ≤ k` executes steps `step..k`, one record and one planning call each,
and stops at `k` with the corresponding status. -/
theorem runSteps_terminal_at
    (planner : String → List PrevAction → Nat → ActionDict)
    (executor : ActionDict → Bool × String × Option String)
    (testName : String) (max_steps k : Nat) (tstr : String)
    (expect : TestStatus)
    (hkind : (tstr = "test_complete" ∧ expect = TestStatus.passed) ∨
             (tstr = "test_failed" ∧ expect = TestStatus.failed))
    (hnt : ∀ scr prev s, s < k → isTerminal (planner scr prev s) = false)
    (hterm : ∀ scr prev, (planner scr prev k).action.getD "" = tstr)
    (hk2 : k ≤ max_steps) :
    ∀ fuel step, fuel = max_steps + 1 - step → step ≤ k →
      ∀ scr prev records calls,
        (runSteps planner executor testName max_steps fuel step scr prev
          records calls).status = expect ∧
        (runSteps planner executor testName max_steps fuel step scr prev
          records calls).records.map (fun r => r.step_number) =
          records.map (fun r => r.step_number) ++
            stepsFrom step (k + 1 - step) ∧
        (runSteps planner executor testName max_steps fuel step scr prev
          records calls).plannerCalls = calls + (k + 1 - step) := by
  intro fuel
  induction fuel with
  | zero =>
    intro step hfe hsk scr prev records calls
    omega
  | succ fuel ih =>
    intro step hfe hsk scr prev records calls
    by_cases hstep : step = k
    · subst hstep
      have ht := hterm scr prev
      have hone : step + 1 - step = 1 := by omega
      rcases hkind with ⟨h1, h2⟩ | ⟨h1, h2⟩
      · subst h1
        subst h2
        have hrun : runSteps planner executor testName max_steps (fuel + 1)
            step scr prev records calls =
            { status := TestStatus.passed,
              message := (planner scr prev step).description.getD
                "Test completed successfully",
              records := records ++ [record_step testName step
                (planner scr prev step)
                (executor (planner scr prev step)).1
                (executor (planner scr prev step)).2.1
                (executor (planner scr prev step)).2.2],
              plannerCalls := calls + 1 } := by
          rw [runSteps]
          simp [ht]
        rw [hrun, hone]
        refine ⟨rfl, ?_, rfl⟩
        simp [record_step, stepsFrom]
      · subst h1
        subst h2
        have hrun : runSteps planner executor testName max_steps (fuel + 1)
            step scr prev records calls =
            { status := TestStatus.failed,
              message := (planner scr prev step).reason.getD "Unknown reason",
              records := records ++ [record_step testName step
                (planner scr prev step)
                (executor (planner scr prev step)).1
                (executor (planner scr prev step)).2.1
                (executor (planner scr prev step)).2.2],
              plannerCalls := calls + 1 } := by
          rw [runSteps]
          simp [ht]
        rw [hrun, hone]
        refine ⟨rfl, ?_, rfl⟩
        simp [record_step, stepsFrom]
    · have hf := hnt scr prev step (by omega)
      simp only [isTerminal, Bool.or_eq_false_iff,
        decide_eq_false_iff_not] at hf
      obtain ⟨hne1, hne2⟩ := hf
      rw [runSteps]
      simp only [hne1, if_false, hne2, ite_false]
      have ihs := ih (step + 1) (by omega) (by omega)
        ((executor (planner scr prev step)).2.2.getD scr)
        (prev ++ [{ step := step,
                    action := (planner scr prev step).action.getD "",
                    description := (planner scr prev step).description.getD "",
                    success := (executor (planner scr prev step)).1 }])
        (records ++ [record_step testName step (planner scr prev step)
          (executor (planner scr prev step)).1
          (executor (planner scr prev step)).2.1
          (executor (planner scr prev step)).2.2])
        (calls + 1)
      refine ⟨ihs.1, ?_, ?_⟩
      · rw [ihs.2.1]
        have hsucc : k + 1 - step = (k - step) + 1 := by omega
        have hsucc2 : k + 1 - (step + 1) = k - step := by omega
        rw [hsucc, hsucc2]
        simp [record_step, stepsFrom]
      · rw [ihs.2.2]
        omega

end SupervisorAgent

/-- C2: if the planner is non-terminal before step `k` and returns a
terminal action at step `k ≤ budget`, the loop executes that action once,
records step `k` (the recorded step numbers are exactly `1..k`), sets
status PASSED for `test_complete` (FAILED for `test_failed`), and exits:
the resulting TestResult has exactly `k` step records and exactly `k`
planning calls are made — none at step `k + 1`. -/
theorem terminal_action_stops_loop
    (planner : String → List SupervisorAgent.PrevAction → Nat → ActionDict)
    (executor : ActionDict → Bool × String × Option String)
    (tc : TestCase) (scr0 : String) (max_steps k : Nat) (tstr : String)
    (expect : TestStatus)
    (hk1 : 1 ≤ k) (hk2 : k ≤ max_steps)
    (hkind : (tstr = "test_complete" ∧ expect = TestStatus.passed) ∨
             (tstr = "test_failed" ∧ expect = TestStatus.failed))
    (hnt : ∀ scr prev s, s < k →
      SupervisorAgent.isTerminal (planner scr prev s) = false)
    (hterm : ∀ scr prev, (planner scr prev k).action.getD "" = tstr) :
    (SupervisorAgent.run_test planner executor tc scr0 max_steps).1.status =
      expect ∧
    (SupervisorAgent.run_test planner executor tc scr0
      max_steps).1.steps_executed.length = k ∧
    (SupervisorAgent.runSteps planner executor tc.name max_steps max_steps 1
      scr0 [] [] 0).records.map (fun r => r.step_number) =
      SupervisorAgent.stepsFrom 1 k ∧
    (SupervisorAgent.run_test planner executor tc scr0 max_steps).2 = k := by
  have hloop := SupervisorAgent.runSteps_terminal_at planner executor tc.name
    max_steps k tstr expect hkind hnt hterm hk2 max_steps 1 (by omega) hk1
    scr0 [] [] 0
  have hk : k + 1 - 1 = k := by omega
  rw [hk] at hloop
  have hrecmap : (SupervisorAgent.runSteps planner executor tc.name max_steps
      max_steps 1 scr0 [] [] 0).records.map (fun r => r.step_number) =
      SupervisorAgent.stepsFrom 1 k := by
    rw [hloop.2.1]
    simp
  refine ⟨hloop.1, ?_, hrecmap, ?_⟩
  · have hlen : (SupervisorAgent.run_test planner executor tc scr0
        max_steps).1.steps_executed.length =
        (SupervisorAgent.runSteps planner executor tc.name max_steps max_steps 1
          scr0 [] [] 0).records.length := by
      simp [SupervisorAgent.run_test, SupervisorAgent.create_result]
    rw [hlen, ← List.length_map _ (fun r => r.step_number), hrecmap,
        SupervisorAgent.stepsFrom_length]
  · show (SupervisorAgent.runSteps planner executor tc.name max_steps
      max_steps 1 scr0 [] [] 0).plannerCalls = k
    rw [hloop.2.2]
    omega

/-- Witness for C2: with a 20-step budget (`MAX_STEPS`) and a planner that
returns `test_complete` at step 5 (taps before that), the run has status
PASSED, exactly 5 step records numbered 1..5, and exactly 5 planning
calls. -/
theorem terminal_action_stops_loop_holds :
    (SupervisorAgent.run_test
      (fun _ _ s => if s = 5 then
          { action := some "test_complete", result := some "pass",
            description := some "goal reached" }
        else { action := some "tap", x := some 1, y := some 2 })
      (fun _ => (true, "ok", some "shot"))
      { name := "t", description := "", expected_result := "",
        should_pass := true }
      "s0" SupervisorAgent.MAX_STEPS).1.status = TestStatus.passed ∧
    (SupervisorAgent.run_test
      (fun _ _ s => if s = 5 then
          { action := some "test_complete", result := some "pass",
            description := some "goal reached" }
        else { action := some "tap", x := some 1, y := some 2 })
      (fun _ => (true, "ok", some "shot"))
      { name := "t", description := "", expected_result := "",
        should_pass := true }
      "s0" SupervisorAgent.MAX_STEPS).1.steps_executed.length = 5 ∧
    (SupervisorAgent.run_test
      (fun _ _ s => if s = 5 then
          { action := some "test_complete", result := some "pass",
            description := some "goal reached" }
        else { action := some "tap", x := some 1, y := some 2 })
      (fun _ => (true, "ok", some "shot"))
      { name := "t", description := "", expected_result := "",
        should_pass := true }
      "s0" SupervisorAgent.MAX_STEPS).2 = 5 := by
  have h := terminal_action_stops_loop
    (fun _ _ s => if s = 5 then
        { action := some "test_complete", result := some "pass",
          description := some "goal reached" }
      else { action := some "tap", x := some 1, y := some 2 })
    (fun _ => (true, "ok", some "shot"))
    { name := "t", description := "", expected_result := "",
      should_pass := true }
    "s0" SupervisorAgent.MAX_STEPS 5 "test_complete" TestStatus.passed
    (by omega) (by decide)
    (Or.inl ⟨rfl, rfl⟩)
    (fun scr prev s hs => by
      have hne : s ≠ 5 := by omega
      simp only [if_neg hne]
      rfl)
    (fun scr prev => rfl)
  exact ⟨h.1, h.2.1, h.2.2.2⟩
